import Mathlib

/-
Verification development for the Nabia in-memory key-value store.

The embedding follows core/engine/engine.go: a `NabiaDB` holds the
Key → Record mapping (modelled as an association list with at most one
entry per key, the image of the Go `sync.Map` under sequential use)
together with the reads/writes/size counters of the `stats` struct.
Each Go method that mutates the receiver becomes a Lean function that
returns the updated database next to its result.  Timestamps (wall
clock reads) and file input/output are outside the model; the in-memory
population loop of `loadFromFile` is modelled on the already-decoded
entry list.
-/

set_option autoImplicit false

deriving instance DecidableEq for Except

namespace Nabia

/-- Record stored under a key, after engine.go `NabiaRecord`: the raw
payload bytes and the declared content type.  `RawData = none` models a
nil Go byte slice, `some l` a (possibly empty) slice with byte values
`l`. -/
structure NabiaRecord where
  RawData : Option (List Nat)
  ContentType : String
deriving DecidableEq

/-- Database state, after engine.go `NabiaDB`/`internals`/`stats`: the
key-to-record mapping plus the location string and the three int64
counters (counter overflow is out of range for any realizable store and
is not modelled). -/
structure NabiaDB where
  Records : List (String × NabiaRecord)
  location : String
  reads : Int
  writes : Int
  size : Int
deriving DecidableEq

/-- Lookup in the mapping, after `sync.Map.Load`. -/
def recordsLoad : List (String × NabiaRecord) → String → Option NabiaRecord
  | [], _ => none
  | (k', v) :: rest, k => if k' = k then some v else recordsLoad rest k

/-- Insert-or-replace in the mapping, after `sync.Map.Store`. -/
def recordsStore : List (String × NabiaRecord) → String → NabiaRecord →
    List (String × NabiaRecord)
  | [], k, v => [(k, v)]
  | (k', v') :: rest, k, v =>
    if k' = k then (k, v) :: rest else (k', v') :: recordsStore rest k v

/-- Removal from the mapping, after `sync.Map.Delete`. -/
def recordsDelete : List (String × NabiaRecord) → String →
    List (String × NabiaRecord)
  | [], _ => []
  | (k', v') :: rest, k =>
    if k' = k then recordsDelete rest k else (k', v') :: recordsDelete rest k

/-- Character class of the engine.go content-type pattern `[a-zA-Z0-9]`. -/
def isAlnumAscii (c : Char) : Bool :=
  ('a' ≤ c && c ≤ 'z') || ('A' ≤ c && c ≤ 'Z') || ('0' ≤ c && c ≤ '9')

/-- Content-type check of engine.go Write: `MatchString` of the anchored
regular expression `^[a-zA-Z0-9]+/[a-zA-Z0-9]+`, i.e. the string starts
with one or more ASCII alphanumerics, a slash, and at least one more
ASCII alphanumeric.  Maximal munch is exact here because the character
after a shorter alphanumeric prefix is itself alphanumeric, never the
required slash. -/
def ctShapeOK (s : String) : Bool :=
  match s.toList with
  | [] => false
  | c :: _ =>
    isAlnumAscii c &&
    (match s.toList.dropWhile isAlnumAscii with
     | '/' :: c2 :: _ => isAlnumAscii c2
     | _ => false)

/-- Errors returned by `NabiaDB.Read` (engine.go returns `error` values;
the two messages are "key cannot be empty" and "key '⟨k⟩' doesn't
exist"). -/
inductive ReadError
  | invalidKey
  | notFound
deriving DecidableEq

/-- Errors returned by `NabiaDB.Write`, one constructor per message:
"key cannot be empty", "value cannot be nil", "Content-Type cannot be
empty" and "Content-Type is not valid". -/
inductive WriteError
  | invalidKey
  | invalidValue
  | invalidContentTypeEmpty
  | invalidContentTypeMalformed
deriving DecidableEq

/-- Both content-type failures of Write fall under the spec's
`InvalidContentType` error class. -/
def WriteError.isInvalidContentType : WriteError → Bool
  | .invalidContentTypeEmpty => true
  | .invalidContentTypeMalformed => true
  | _ => false

/-- Membership probe, after engine.go `Exists`: an empty key reports
false without touching the counters, any other key bumps the read
counter and reports whether the key is mapped. -/
def NabiaDB.Exists (db : NabiaDB) (key : String) : Bool × NabiaDB :=
  if key = "" then (false, db)
  else ((recordsLoad db.Records key).isSome, { db with reads := db.reads + 1 })

/-- Lookup, after engine.go `Read`: an empty key fails before the
counters, otherwise the read counter is bumped and the record is
returned when present.  (The runtime type-assertion branch of the Go
code cannot fire in the typed model: every stored value is a
`NabiaRecord`.) -/
def NabiaDB.Read (db : NabiaDB) (key : String) :
    Except ReadError NabiaRecord × NabiaDB :=
  if key = "" then (.error .invalidKey, db)
  else
    let db' := { db with reads := db.reads + 1 }
    match recordsLoad db.Records key with
    | some r => (.ok r, db')
    | none => (.error .notFound, db')

/-- Store, after engine.go `Write`: four validation checks in source
order, then the write counter is bumped, `Exists` is consulted (bumping
the read counter) to decide whether the size counter grows, and the
record is stored, overwriting any previous value. -/
def NabiaDB.Write (db : NabiaDB) (key : String) (value : NabiaRecord) :
    Except WriteError Unit × NabiaDB :=
  if key = "" then (.error .invalidKey, db)
  else if value.RawData.isNone then (.error .invalidValue, db)
  else if value.ContentType = "" then (.error .invalidContentTypeEmpty, db)
  else if ctShapeOK value.ContentType = false then
    (.error .invalidContentTypeMalformed, db)
  else
    let db1 := { db with writes := db.writes + 1 }
    let e := db1.Exists key
    let db3 := if e.fst then e.snd else { e.snd with size := e.snd.size + 1 }
    (.ok (), { db3 with Records := recordsStore db3.Records key value })

/-- Removal, after engine.go `Destroy`: `Exists` is consulted (bumping
the read counter for a non-empty key) to decide whether the size counter
shrinks, then the key is deleted and the write counter is bumped.  Never
errors. -/
def NabiaDB.Destroy (db : NabiaDB) (key : String) : NabiaDB :=
  let e := db.Exists key
  let db2 := if e.fst then { e.snd with size := e.snd.size - 1 } else e.snd
  { db2 with Records := recordsDelete db2.Records key,
             writes := db2.writes + 1 }

/-- Fresh database, after engine.go `newEmptyDB`. -/
def newEmptyDB : NabiaDB :=
  { Records := [], location := "", reads := 0, writes := 0, size := 0 }

/-- In-memory population loop of engine.go `loadFromFile`, applied to
the entry list already decoded from the snapshot (file opening and gob
decoding are outside the model; Go map iteration visits each decoded
key once, in the order of the list).  For every entry the Go code runs
`ndb.Write(key, value)` — whose error it ignores — and then additionally
increments the size counter. -/
def loadFromData (filename : String) (data : List (String × NabiaRecord)) :
    NabiaDB :=
  data.foldl
    (fun db kv =>
      let db1 := (db.Write kv.1 kv.2).snd
      { db1 with size := db1.size + 1 })
    { newEmptyDB with location := filename }

/-- Byte sequence of a content-type string, one byte per character.  The
content types the codec carries are ASCII, where this agrees with the
UTF-8 byte sequence the Go code produces. -/
def strBytes (s : String) : List Nat :=
  s.toList.map Char.toNat

/-- Errors of the record codec, after the spec's taxonomy (§7):
`contentTypeTooLarge` from Encode, the rest from Decode. -/
inductive CodecError
  | contentTypeTooLarge
  | truncated
  | unsupportedVersion
  | invalidContentType
deriving DecidableEq

/-- Modelled from the spec: the server-side record codec's `serialize`
(spec §4.3 Encode) is absent from the sources — only its tests remain —
so it is taken from the spec's wire format table: fail with
`ContentTypeTooLarge` when the content-type is longer than 255 bytes,
otherwise emit version byte `0`, the content-type length byte, the
content-type bytes, then the payload verbatim. -/
def Encode (payload : List Nat) (contentType : String) :
    Except CodecError (List Nat) :=
  if 255 < (strBytes contentType).length then .error .contentTypeTooLarge
  else .ok (0 :: (strBytes contentType).length :: (strBytes contentType ++ payload))

/-- Modelled from the spec: the codec's `deserialize` (spec §4.3 Decode)
is absent from the sources — only its tests remain — so it is taken from
the spec: `Truncated` when fewer bytes are present than the
version/length header requires, `UnsupportedVersion` when the version
byte is not `0`, `InvalidContentType` when the declared content-type
length is `0`, when the buffer is shorter than that length, or when the
extracted content-type fails the same shape validation the Store uses;
the remaining bytes become the payload. -/
def Decode (bs : List Nat) : Except CodecError (List Nat × String) :=
  match bs with
  | [] => .error .truncated
  | [_] => .error .truncated
  | v :: n :: rest =>
    if v ≠ 0 then .error .unsupportedVersion
    else if n = 0 then .error .invalidContentType
    else if rest.length < n then .error .invalidContentType
    else
      let ct := String.mk ((rest.take n).map Char.ofNat)
      if ctShapeOK ct = false then .error .invalidContentType
      else .ok (rest.drop n, ct)

/-- Token characters of a media-type name or parameter, covering the
alphanumerics plus the punctuation seen in real media types. -/
def specTokenChar (c : Char) : Bool :=
  isAlnumAscii c || c = '-' || c = '.' || c = '+' || c = '_'

/-- Main `type/subtype` part of the spec's content-type grammar. -/
def specMainOK (l : List Char) : Bool :=
  (l.takeWhile specTokenChar ≠ []) &&
  (match l.dropWhile specTokenChar with
   | '/' :: r => r ≠ [] && r.all specTokenChar
   | _ => false)

/-- One `;attribute=value` parameter of the spec's content-type grammar,
allowing spaces after the semicolon as the repository's tests do. -/
def specParamOK (l : List Char) : Bool :=
  let l1 := l.dropWhile (· = ' ')
  (l1.takeWhile specTokenChar ≠ []) &&
  (match l1.dropWhile specTokenChar with
   | '=' :: v => v ≠ [] && v.all specTokenChar
   | _ => false)

/-- Modelled from the spec: the shape "`type/subtype` optionally followed
by `;attribute=value` parameters" (spec §3), stated from the spec's words
to compare against the check engine.go Write actually performs. -/
def specContentTypeShape (s : String) : Bool :=
  match s.toList.splitOn ';' with
  | [] => false
  | main :: params => specMainOK main && params.all specParamOK

/-! Helper lemmas about the mapping primitives and the engine operations. -/

theorem recordsLoad_store_self (rs : List (String × NabiaRecord)) (k : String)
    (v : NabiaRecord) : recordsLoad (recordsStore rs k v) k = some v := by
  induction rs with
  | nil => simp [recordsStore, recordsLoad]
  | cons p rest ih =>
    obtain ⟨k', v'⟩ := p
    by_cases h : k' = k
    · simp [recordsStore, recordsLoad, h]
    · simp [recordsStore, recordsLoad, h, ih]

theorem recordsLoad_delete_self (rs : List (String × NabiaRecord)) (k : String) :
    recordsLoad (recordsDelete rs k) k = none := by
  induction rs with
  | nil => simp [recordsDelete, recordsLoad]
  | cons p rest ih =>
    obtain ⟨k', v'⟩ := p
    by_cases h : k' = k
    · simp [recordsDelete, h, ih]
    · simp [recordsDelete, recordsLoad, h, ih]

theorem write_fst_eq (db : NabiaDB) (key : String) (value : NabiaRecord) :
    (db.Write key value).fst =
      (if key = "" then .error .invalidKey
       else if value.RawData.isNone then .error .invalidValue
       else if value.ContentType = "" then .error .invalidContentTypeEmpty
       else if ctShapeOK value.ContentType = false then
         .error .invalidContentTypeMalformed
       else .ok ()) := by
  unfold NabiaDB.Write
  split_ifs <;> rfl

theorem write_ok_iff (db : NabiaDB) (key : String) (value : NabiaRecord) :
    (db.Write key value).fst = .ok () ↔
      (¬ key = "" ∧ value.RawData.isNone = false ∧ ¬ value.ContentType = "" ∧
       ctShapeOK value.ContentType = true) := by
  rw [write_fst_eq]
  split_ifs with h1 h2 h3 h4 <;>
    simp_all [Option.isNone_iff_eq_none, Option.isSome_iff_ne_none]

theorem write_ok_spec (db : NabiaDB) (key : String) (value : NabiaRecord)
    (hk : ¬ key = "") (hd : value.RawData.isNone = false)
    (hc : ¬ value.ContentType = "") (hs : ctShapeOK value.ContentType = true) :
    db.Write key value =
      (.ok (), { Records := recordsStore db.Records key value,
                 location := db.location,
                 reads := db.reads + 1,
                 writes := db.writes + 1,
                 size := if (recordsLoad db.Records key).isSome then db.size
                         else db.size + 1 }) := by
  unfold NabiaDB.Write NabiaDB.Exists
  rw [if_neg hk, if_neg (by simp [hd]), if_neg hc, if_neg (by simp [hs])]
  by_cases he : (recordsLoad db.Records key).isSome
  · simp [hk, he]
  · simp [hk, he]

theorem write_snd_of_err (db : NabiaDB) (key : String) (value : NabiaRecord)
    (h : (db.Write key value).fst ≠ .ok ()) : (db.Write key value).snd = db := by
  unfold NabiaDB.Write at h ⊢
  split_ifs at h ⊢ <;> simp_all

theorem read_snd_records (db : NabiaDB) (key : String) :
    (db.Read key).snd.Records = db.Records := by
  unfold NabiaDB.Read
  split_ifs with h
  · rfl
  · cases recordsLoad db.Records key <;> rfl

theorem read_found (db : NabiaDB) (key : String) (r : NabiaRecord)
    (hk : ¬ key = "") (h : recordsLoad db.Records key = some r) :
    (db.Read key).fst = .ok r := by
  unfold NabiaDB.Read
  rw [if_neg hk, h]

theorem destroy_spec (db : NabiaDB) (key : String) :
    db.Destroy key =
      { Records := recordsDelete db.Records key,
        location := db.location,
        reads := if key = "" then db.reads else db.reads + 1,
        writes := db.writes + 1,
        size := if (db.Exists key).fst then db.size - 1 else db.size } := by
  unfold NabiaDB.Destroy NabiaDB.Exists
  by_cases hk : key = ""
  · simp [hk]
  · by_cases he : (recordsLoad db.Records key).isSome <;> simp [hk, he]

theorem exists_fst_false_of_not_mem (db : NabiaDB) (key : String)
    (h : recordsLoad db.Records key = none) : (db.Exists key).fst = false := by
  unfold NabiaDB.Exists
  split_ifs with hk
  · rfl
  · simp [h]

theorem string_mk_toList (s : String) : String.mk s.toList = s := rfl

theorem decode_cons (v n : Nat) (rest : List Nat) :
    Decode (v :: n :: rest) =
      (if v ≠ 0 then .error .unsupportedVersion
       else if n = 0 then .error .invalidContentType
       else if rest.length < n then .error .invalidContentType
       else
         let ct := String.mk ((rest.take n).map Char.ofNat)
         if ctShapeOK ct = false then .error .invalidContentType
         else .ok (rest.drop n, ct)) := rfl

theorem ctShapeOK_toList_ne_nil {c : String} (h : ctShapeOK c = true) :
    c.toList ≠ [] := by
  intro hnil
  unfold ctShapeOK at h
  rw [hnil] at h
  exact Bool.noConfusion h

/-! Claim theorems. -/

/-- C1: for every non-empty key, non-nil payload and valid content-type,
after a `Write` that returns no error, `Read` on the same key returns
exactly the written record with no error. -/
theorem write_then_read_ok (db : NabiaDB) (key : String) (value : NabiaRecord)
    (h : (db.Write key value).fst = Except.ok ()) :
    ((db.Write key value).snd.Read key).fst = Except.ok value := by
  obtain ⟨hk, hd, hc, hs⟩ := (write_ok_iff db key value).mp h
  rw [write_ok_spec db key value hk (by simpa [Option.isNone_iff_eq_none] using hd) hc hs]
  exact read_found _ key value hk (recordsLoad_store_self db.Records key value)

theorem write_then_read_ok_witness :
    ((newEmptyDB.Write "/A" ⟨some [86], "text/plain; charset=UTF-8"⟩).snd.Read
        "/A").fst = Except.ok ⟨some [86], "text/plain; charset=UTF-8"⟩ :=
  write_then_read_ok newEmptyDB "/A" ⟨some [86], "text/plain; charset=UTF-8"⟩
    (by decide)

/-- C9: writing the same (key, payload, content-type) twice leaves the key
present, a `Read` still returns the written record, and the size counter is
unchanged by the second write. -/
theorem write_twice_idempotent (db : NabiaDB) (key : String) (value : NabiaRecord)
    (h : (db.Write key value).fst = Except.ok ()) :
    ((((db.Write key value).snd.Write key value).snd.Exists key).fst = true) ∧
    ((((db.Write key value).snd.Write key value).snd.Read key).fst
        = Except.ok value) ∧
    (((db.Write key value).snd.Write key value).snd.size
        = (db.Write key value).snd.size) := by
  obtain ⟨hk, hd, hc, hs⟩ := (write_ok_iff db key value).mp h
  have hd' : value.RawData.isNone = false := by
    simpa [Option.isNone_iff_eq_none] using hd
  rw [write_ok_spec db key value hk hd' hc hs]
  rw [write_ok_spec _ key value hk hd' hc hs]
  refine ⟨?_, ?_, ?_⟩
  · unfold NabiaDB.Exists
    rw [if_neg hk]
    simp [recordsLoad_store_self]
  · exact read_found _ key value hk (recordsLoad_store_self _ key value)
  · simp [recordsLoad_store_self]

theorem write_twice_idempotent_witness :
    (((newEmptyDB.Write "/A" ⟨some [86], "text/plain"⟩).snd.Write "/A"
        ⟨some [86], "text/plain"⟩).snd.size
      = (newEmptyDB.Write "/A" ⟨some [86], "text/plain"⟩).snd.size) :=
  (write_twice_idempotent newEmptyDB "/A" ⟨some [86], "text/plain"⟩ (by decide)).2.2

/-- C8: after `Destroy(k)` the key is absent; `Destroy` never errors (it is
total), the size counter is decremented exactly when the key was present, a
second `Destroy` does not decrement it again, and every `Destroy` — the
no-op delete included — increments the write counter. -/
theorem destroy_props (db : NabiaDB) (key : String) :
    (((db.Destroy key).Exists key).fst = false) ∧
    ((db.Destroy key).size
        = (if (db.Exists key).fst then db.size - 1 else db.size)) ∧
    (((db.Destroy key).Destroy key).size = (db.Destroy key).size) ∧
    ((db.Destroy key).writes = db.writes + 1) ∧
    (((db.Destroy key).Destroy key).writes = (db.Destroy key).writes + 1) := by
  have habsent : ((db.Destroy key).Exists key).fst = false := by
    apply exists_fst_false_of_not_mem
    rw [destroy_spec]
    exact recordsLoad_delete_self db.Records key
  refine ⟨habsent, ?_, ?_, ?_, ?_⟩
  · rw [destroy_spec]
  · rw [destroy_spec ((db.Destroy key)) key]
    rw [habsent]
    simp
  · rw [destroy_spec]
  · rw [destroy_spec ((db.Destroy key)) key]

/-- C10: a `Write` rejected by any validation check and a `Read` that
errors (empty or absent key) leave the key-to-record mapping exactly as it
was before the call. -/
theorem failed_op_preserves_records (db : NabiaDB) (key : String)
    (value : NabiaRecord) :
    (∀ e : WriteError, (db.Write key value).fst = Except.error e →
        (db.Write key value).snd.Records = db.Records) ∧
    (∀ e : ReadError, (db.Read key).fst = Except.error e →
        (db.Read key).snd.Records = db.Records) := by
  constructor
  · intro e he
    have hne : (db.Write key value).fst ≠ Except.ok () := by
      rw [he]; exact fun hcontra => Except.noConfusion hcontra
    rw [write_snd_of_err db key value hne]
  · intro e _
    exact read_snd_records db key

theorem failed_op_preserves_records_witness :
    (newEmptyDB.Write "" ⟨some [1], "text/plain"⟩).snd.Records
      = newEmptyDB.Records :=
  (failed_op_preserves_records newEmptyDB "" ⟨some [1], "text/plain"⟩).1
    WriteError.invalidKey (by decide)

/-- C3 counterexample: the content-type "text/plain; invalid" does not
match the spec's shape "`type/subtype` optionally followed by
`;attribute=value` parameters" (its parameter has no `=value`), yet
`Write` accepts and stores it, because the engine only checks the
`^[a-zA-Z0-9]+/[a-zA-Z0-9]+` prefix.  This refutes the claim that
content-types failing the full shape are rejected. -/
theorem write_shape_claim_counterexample :
    specContentTypeShape "text/plain; invalid" = false ∧
    (newEmptyDB.Write "k" ⟨some [120], "text/plain; invalid"⟩).fst
      = Except.ok () ∧
    (newEmptyDB.Write "k" ⟨some [120], "text/plain; invalid"⟩).snd.Records
      = [("k", ⟨some [120], "text/plain; invalid"⟩)] := by
  exact ⟨by decide, by decide, by decide⟩

/-- C3 amended: `Write` validates in source order — empty key yields
`InvalidKey`, nil payload yields `InvalidValue`, empty content-type and a
content-type that does not start with an ASCII alphanumeric type, a slash
and an ASCII alphanumeric yield the two `InvalidContentType` errors — and
exactly the inputs passing all four checks are stored. -/
theorem write_validation_order (db : NabiaDB) (key : String)
    (value : NabiaRecord) :
    ((db.Write key value).fst = Except.error WriteError.invalidKey ↔
        key = "") ∧
    ((db.Write key value).fst = Except.error WriteError.invalidValue ↔
        (¬ key = "" ∧ value.RawData = none)) ∧
    ((db.Write key value).fst
          = Except.error WriteError.invalidContentTypeEmpty ↔
        (¬ key = "" ∧ value.RawData ≠ none ∧ value.ContentType = "")) ∧
    ((db.Write key value).fst
          = Except.error WriteError.invalidContentTypeMalformed ↔
        (¬ key = "" ∧ value.RawData ≠ none ∧ ¬ value.ContentType = "" ∧
         ctShapeOK value.ContentType = false)) ∧
    (WriteError.invalidContentTypeEmpty.isInvalidContentType = true ∧
     WriteError.invalidContentTypeMalformed.isInvalidContentType = true) ∧
    ((db.Write key value).fst = Except.ok () →
        recordsLoad (db.Write key value).snd.Records key = some value) ∧
    ((db.Write key value).fst ≠ Except.ok () →
        (db.Write key value).snd = db) := by
  refine ⟨?_, ?_, ?_, ?_, ⟨rfl, rfl⟩, ?_, write_snd_of_err db key value⟩
  · rw [write_fst_eq]
    split_ifs <;> simp_all
  · rw [write_fst_eq]
    split_ifs <;> simp_all [Option.isNone_iff_eq_none]
  · rw [write_fst_eq]
    split_ifs <;> simp_all [Option.isNone_iff_eq_none]
  · rw [write_fst_eq]
    split_ifs <;> simp_all [Option.isNone_iff_eq_none]
  · intro h
    obtain ⟨hk, hd, hc, hs⟩ := (write_ok_iff db key value).mp h
    rw [write_ok_spec db key value hk
      (by simpa [Option.isNone_iff_eq_none] using hd) hc hs]
    exact recordsLoad_store_self db.Records key value

theorem write_validation_order_witness :
    (newEmptyDB.Write "" ⟨some [1], "text/plain"⟩).fst
      = Except.error WriteError.invalidKey :=
  (write_validation_order newEmptyDB "" ⟨some [1], "text/plain"⟩).1.mpr rfl

/-- C4: evaluation showing the size invariant broken by the load path — a
snapshot holding one valid entry is loaded into a store whose mapping has
one entry but whose size counter is 2, because `loadFromData` runs `Write`
(which already counts the new key) and then increments size again. -/
theorem load_size_miscount :
    ((loadFromData "nabia.db" [("a", ⟨some [120], "text/plain"⟩)]).size = 2) ∧
    ((loadFromData "nabia.db"
        [("a", ⟨some [120], "text/plain"⟩)]).Records.length = 1) := by
  exact ⟨by decide, by decide⟩

/-- C5: evaluation showing that loading a two-entry snapshot reproduces
exactly the two key/record pairs, but leaves the size statistic at 4
rather than 2 — each entry is counted once inside `Write` and once by the
extra increment in the load loop. -/
theorem load_preserves_entries_but_doubles_size :
    ((loadFromData "nabia.db"
        [("a", ⟨some [1], "text/plain"⟩), ("b", ⟨some [2], "application/json"⟩)]).Records
      = [("a", ⟨some [1], "text/plain"⟩), ("b", ⟨some [2], "application/json"⟩)]) ∧
    ((loadFromData "nabia.db"
        [("a", ⟨some [1], "text/plain"⟩), ("b", ⟨some [2], "application/json"⟩)]).size
      = 4) := by
  exact ⟨by decide, by decide⟩

/-- C6: `Encode([]byte("test"), "application/octet-stream")` yields exactly
the version byte 0, the length byte 24, the 24 content-type bytes, then the
payload bytes of "test". -/
theorem encode_scenario3 :
    Encode [116, 101, 115, 116] "application/octet-stream" =
      Except.ok [0, 24,
        97, 112, 112, 108, 105, 99, 97, 116, 105, 111, 110, 47,
        111, 99, 116, 101, 116, 45, 115, 116, 114, 101, 97, 109,
        116, 101, 115, 116] := by
  decide

/-- C7: `Encode` fails with `ContentTypeTooLarge` exactly when the
content-type is longer than 255 bytes; otherwise it emits the version byte
0, the content-type length byte, the content-type bytes, then the payload
verbatim. -/
theorem encode_spec (payload : List Nat) (contentType : String) :
    (Encode payload contentType = Except.error CodecError.contentTypeTooLarge ↔
        255 < (strBytes contentType).length) ∧
    ((strBytes contentType).length ≤ 255 →
        Encode payload contentType =
          Except.ok (0 :: (strBytes contentType).length ::
            (strBytes contentType ++ payload))) := by
  constructor
  · unfold Encode
    split_ifs with h <;> simp_all
  · intro hle
    unfold Encode
    rw [if_neg (by omega)]

theorem encode_spec_witness :
    Encode [1] "a/b" = Except.ok [0, 3, 97, 47, 98, 1] :=
  (encode_spec [1] "a/b").2 (by decide)

/-- C2: for every payload (the empty payload included) and every
content-type of at most 255 bytes that passes the Store's shape check,
decoding the encoding returns exactly the original payload and
content-type with no error. -/
theorem decode_encode_roundtrip (payload : List Nat) (contentType : String)
    (hshape : ctShapeOK contentType = true)
    (hlen : (strBytes contentType).length ≤ 255) :
    (Encode payload contentType).bind Decode
      = Except.ok (payload, contentType) := by
  have hne : contentType.toList ≠ [] := ctShapeOK_toList_ne_nil hshape
  have hpos : 0 < (strBytes contentType).length := by
    unfold strBytes
    simpa using List.length_pos.mpr hne
  unfold Encode
  rw [if_neg (by omega)]
  show Decode (0 :: (strBytes contentType).length ::
    (strBytes contentType ++ payload)) = Except.ok (payload, contentType)
  rw [decode_cons]
  rw [if_neg (by omega), if_neg (by omega),
    if_neg (by rw [List.length_append]; omega)]
  have hct : String.mk ((strBytes contentType).map Char.ofNat) = contentType := by
    unfold strBytes
    rw [List.map_map]
    simp [Function.comp_def, Char.ofNat_toNat, string_mk_toList]
  simp only [List.take_left, List.drop_left, hct, hshape]
  simp

theorem decode_encode_roundtrip_witness :
    (Encode [116, 101, 115, 116] "text/plain").bind Decode
      = Except.ok ([116, 101, 115, 116], "text/plain") :=
  decode_encode_roundtrip [116, 101, 115, 116] "text/plain" (by decide) (by decide)

end Nabia
